import Mathlib

/-!
Verification development for the GreenTech relay-control backend
(single-file Node.js server). The definitions below are a shallow
embedding of the server's data model and of the handlers the claims
are about:

* `UserAccount` / `Dashboard` / `RelayConfig` / `Schedule` mirror the
  mongoose `userSchema`;
* `DeviceStatusRecord` / `RelayEntry` mirror `deviceStatusSchema`
  (array elements may be literal `null`, hence `Option RelayEntry`);
* `schedulerTick` embeds the body of the cron callback in
  `setupScheduler`;
* `calculateNextRun` embeds the function of the same name;
* `handleUserRegistration`, `handleRelayStatus`, `handleDeviceStatus`
  embed the three MQTT ingestion handlers, with persistence failure
  made explicit as a boolean and side effects recorded as an event
  trace;
* `findOneAndUpdateRelay` / `setRelayPath` embed the MongoDB
  `findOneAndUpdate` call of `handleRelayStatus`, including MongoDB's
  documented positional interpretation of numeric `$set` field paths
  and its natural-order (no sort) document selection;
* `upsertRelayConfig` embeds the relay-configuration route
  `PUT /api/dashboard/relay/:deviceId`.

JavaScript `undefined` for optional payload fields is modelled with
`Option`; JavaScript truthiness tests on those fields are modelled
accordingly (`== some true` for `if (x.enabled)`-style tests, `== ""`
for `!data.field` tests on string fields). JavaScript string
comparison is code-unit lexicographic (`jsStrLe`). Stored schedule
times are fixed-width "HH:MM" strings, but the scheduler's wall-clock
capture `toLocaleTimeString('en-EG', { hour: '2-digit',
minute: '2-digit' })` is NOT of that shape: the `en-EG` locale uses
the 12-hour cycle, so the captured string has the form
"hh:mm AM"/"hh:mm PM" (`formatTimeEnEG`); the two shapes compare
incoherently.
-/

/-- One recurring activation window of a relay (`schedules` entry of
the mongoose user schema): weekday numbers, "HH:MM" start and end
times, enabled flag (`Option Bool`: `none` models a missing field). -/
structure Schedule where
  days : List Nat
  startTime : String
  endTime : String
  enabled : Option Bool
deriving Repr, DecidableEq

/-- One controllable channel (`dashboard.relays` entry of the mongoose
user schema). -/
structure RelayConfig where
  index : Int
  name : String
  image : Option String
  schedules : List Schedule
  enabled : Option Bool
  createdAt : Nat
deriving Repr, DecidableEq

/-- The embedded dashboard of a user account. -/
structure Dashboard where
  relays : List RelayConfig
deriving Repr, DecidableEq

/-- A user/device account (mongoose `User` model). -/
structure UserAccount where
  username : String
  password : String
  deviceId : String
  createdAt : Nat
  dashboard : Dashboard
deriving Repr, DecidableEq

/-- An outbound relay-control command as built by `controlRelay` and
published on `green-tech/relay-control`. -/
structure RelayCommand where
  deviceId : String
  relay : Int
  action : String
  duration : Option Nat
deriving Repr, DecidableEq

/-- `controlRelay(deviceId, relayIndex, action, duration = null)`:
builds the relay-control message (the `duration` key is present only
when a non-null duration is passed). -/
def controlRelay (deviceId : String) (relayIndex : Int) (action : String)
    (duration : Option Nat) : RelayCommand :=
  { deviceId := deviceId, relay := relayIndex, action := action, duration := duration }

/-- Lexicographic comparison of character lists, by the character
order (on ASCII data this is exactly JavaScript's code-unit
comparison). -/
def charListLe : List Char → List Char → Bool
  | [], _ => true
  | _ :: _, [] => false
  | a :: as, b :: bs => if a < b then true else if b < a then false else charListLe as bs

/-- JavaScript's `a <= b` on strings: lexicographic code-unit
comparison. -/
def jsStrLe (a b : String) : Bool := charListLe a.data b.data

/-- Strict lexicographic comparison of character lists. -/
def charListLt : List Char → List Char → Bool
  | [], [] => false
  | [], _ :: _ => true
  | _ :: _, [] => false
  | a :: as, b :: bs => if a < b then true else if b < a then false else charListLt as bs

/-- JavaScript's `a < b` on strings. -/
def jsStrLt (a b : String) : Bool := charListLt a.data b.data

/-- Inner loop body of the scheduler tick for one schedule: skip when
`!schedule.enabled`; otherwise emit an "on" command iff
`schedule.days.includes(currentDay)` and
`currentTime >= schedule.startTime && currentTime <= schedule.endTime`
(lexicographic string comparison). -/
def checkSchedule (deviceId : String) (relayIndex : Int) (currentDay : Nat)
    (currentTime : String) (s : Schedule) : List RelayCommand :=
  if s.enabled ≠ some true then []
  else
    let isScheduledDay := s.days.contains currentDay
    let isScheduledTime := jsStrLe s.startTime currentTime && jsStrLe currentTime s.endTime
    if isScheduledDay && isScheduledTime then
      [controlRelay deviceId relayIndex "on" none]
    else []

/-- Scheduler loop body for one relay: skip when `!relay.enabled`,
else check each of its schedules. -/
def checkRelay (deviceId : String) (currentDay : Nat) (currentTime : String)
    (r : RelayConfig) : List RelayCommand :=
  if r.enabled ≠ some true then []
  else r.schedules.flatMap (checkSchedule deviceId r.index currentDay currentTime)

/-- One tick of the cron job installed by `setupScheduler`, given the
captured values and the result of `User.find({})`: the list of
relay-control commands published during the tick, in program order.
`currentDay` is `now.getDay()` (the server's local timezone, not
Africa/Cairo) and `currentTime` is whatever string
`now.toLocaleTimeString('en-EG', { timeZone: 'Africa/Cairo',
hour: '2-digit', minute: '2-digit' })` produced — a 12-hour
"hh:mm AM/PM" string (`formatTimeEnEG`), not an "HH:MM" string. -/
def schedulerTick (currentDay : Nat) (currentTime : String)
    (users : List UserAccount) : List RelayCommand :=
  users.flatMap fun u =>
    u.dashboard.relays.flatMap (checkRelay u.deviceId currentDay currentTime)

/-- The two-digit rendering of an hour or minute value. -/
def pad2 (n : Nat) : String :=
  String.mk [Char.ofNat (48 + n / 10), Char.ofNat (48 + n % 10)]

/-- The scheduler's wall-clock capture
`now.toLocaleTimeString('en-EG', { timeZone: 'Africa/Cairo', hour:
'2-digit', minute: '2-digit' })`, as a function of the Cairo-local
24-hour time: per CLDR the `en-EG` locale prefers the 12-hour cycle,
so the result is "hh:mm AM" / "hh:mm PM" with a zero-padded 12-hour
hour ("12" for midnight and noon), never a bare 24-hour "HH:MM".
The separator before the day period is modelled as an ASCII space;
newer ICU may emit a narrow no-break space instead, which changes
none of the comparisons proved below (they are all decided strictly
before, or at, the separator position). -/
def formatTimeEnEG (hour24 minute : Nat) : String :=
  let h12 := (hour24 + 11) % 12 + 1
  let period := if hour24 < 12 then "AM" else "PM"
  pad2 h12 ++ ":" ++ pad2 minute ++ " " ++ period

/-- Result of `calculateNextRun` (the `date` component, which is plain
calendar arithmetic on `now`, is omitted; `daysFromNow` and `time`
carry the content of the claims). -/
structure NextRun where
  time : String
  daysFromNow : Nat
deriving Repr, DecidableEq

/-- The `for (let i = 1; i <= 7; i++)` search of `calculateNextRun`:
first `i` in the given list with `(currentDay + i) % 7` in the day
set, else the initial value `0` of `daysToAdd`. -/
def daysToAddLoop (currentDay : Nat) (days : List Nat) : List Nat → Nat
  | [] => 0
  | i :: rest =>
    if days.contains ((currentDay + i) % 7) then i
    else daysToAddLoop currentDay days rest

/-- `calculateNextRun(schedule)`, with the wall-clock capture made
explicit: `currentDay` is `now.getDay()` and `currentTime` is the
formatted local time.  Note that the source computes `currentTime`
and never uses it, and its day search runs `i` from 1 to 7 only. -/
def calculateNextRun (currentDay : Nat) (currentTime : String) (s : Schedule) : NextRun :=
  let _ := currentTime
  let daysToAdd := daysToAddLoop currentDay s.days [1, 2, 3, 4, 5, 6, 7]
  { time := s.startTime, daysFromNow := daysToAdd }

/-- Replace the first element satisfying `p` by its image under `f`
(the effect of mutating the document returned by a natural-order
`findOne` / `find` and saving it back). -/
def updateFirst (p : α → Bool) (f : α → α) : List α → List α
  | [] => []
  | x :: xs => if p x then f x :: xs else x :: updateFirst p f xs

/-- Payload of a `green-tech/credentials` bus message. A missing
(`undefined` or empty, both falsy) field is modelled as `""`. -/
structure RegMsg where
  username : String
  password : String
  deviceId : String
deriving Repr, DecidableEq

/-- The `$or` filter of the registration handler's `User.findOne`:
the account matches the message by username or by device identifier. -/
def regMatches (m : RegMsg) (u : UserAccount) : Bool :=
  u.username == m.username || u.deviceId == m.deviceId

/-- `handleUserRegistration(data)` acting on the user collection in
natural (insertion) order. `hash` is the bcrypt KDF (salted, hence a
parameter); `now` is the clock used for the `createdAt` default. If a
required field is falsy the handler logs and returns; if `findOne`
finds a matching account the handler overwrites its password with a
fresh hash and saves; otherwise it inserts a fresh account with an
empty dashboard. -/
def handleUserRegistration (hash : String → String) (now : Nat) (m : RegMsg)
    (store : List UserAccount) : List UserAccount :=
  if m.username = "" ∨ m.password = "" ∨ m.deviceId = "" then store
  else
    match store.find? (regMatches m) with
    | some _ => updateFirst (regMatches m) (fun u => { u with password := hash m.password }) store
    | none =>
      store ++ [{ username := m.username, password := hash m.password,
                  deviceId := m.deviceId, createdAt := now,
                  dashboard := { relays := [] } }]

/-- One element of a `DeviceStatus.relays` array. Every field is
optional: a targeted `$set` on a fresh array position creates an
element carrying only `state` and `timer`. -/
structure RelayEntry where
  index : Option Int
  state : Option Bool
  name : Option String
  timer : Option Int
deriving Repr, DecidableEq

/-- A document of the `DeviceStatus` collection. An array slot holding
literal `null` (created by MongoDB when a positional `$set` skips
positions) is `none`. -/
structure DeviceStatusRecord where
  deviceId : String
  ip : Option String
  rssi : Option Int
  uptime : Option Int
  relays : List (Option RelayEntry)
  timestamp : Nat
deriving Repr, DecidableEq

/-- Payload of a `green-tech/relay-status` bus message. -/
structure RelayStatusMsg where
  deviceId : String
  relay : Nat
  state : Bool
  timer : Int
deriving Repr, DecidableEq

/-- Effect of `$set` with field paths `relays.c.state` and
`relays.c.timer` on one array element: set those two fields, creating
the object if the slot did not hold one. -/
def setEntry (e : Option RelayEntry) (st : Bool) (tm : Int) : Option RelayEntry :=
  match e with
  | some e => some { e with state := some st, timer := some tm }
  | none => some { index := none, state := some st, name := none, timer := some tm }

/-- MongoDB's positional interpretation of the numeric field paths
`relays.c.state` / `relays.c.timer` in a `$set`: the element at array
position `c` is modified (regardless of any stored `index` field),
and when the array is shorter than `c + 1` the intermediate positions
are created as `null`. -/
def setRelayPath : List (Option RelayEntry) → Nat → Bool → Int → List (Option RelayEntry)
  | [], 0, st, tm => [setEntry none st tm]
  | [], c + 1, st, tm => none :: setRelayPath [] c st tm
  | e :: rest, 0, st, tm => setEntry e st tm :: rest
  | e :: rest, c + 1, st, tm => e :: setRelayPath rest c st tm

/-- The whole `$set` document of `handleRelayStatus`'s
`findOneAndUpdate`: the two positional relay paths plus
`timestamp: new Date()`. -/
def applyRelaySet (msg : RelayStatusMsg) (now : Nat) (r : DeviceStatusRecord) :
    DeviceStatusRecord :=
  { r with relays := setRelayPath r.relays msg.relay msg.state msg.timer,
           timestamp := now }

/-- The document MongoDB inserts when the upsert finds no match: the
equality fields of the filter (`deviceId`) plus the `$set` paths. -/
def upsertNewRecord (msg : RelayStatusMsg) (now : Nat) : DeviceStatusRecord :=
  { deviceId := msg.deviceId, ip := none, rssi := none, uptime := none,
    relays := setRelayPath [] msg.relay msg.state msg.timer,
    timestamp := now }

/-- `DeviceStatus.findOneAndUpdate({deviceId}, {$set: ...}, {upsert:
true})`: no sort option is given, so MongoDB selects the first
matching document in natural (insertion) order; if none matches, a
new document is inserted. -/
def findOneAndUpdateRelay (msg : RelayStatusMsg) (now : Nat) :
    List DeviceStatusRecord → List DeviceStatusRecord
  | [] => [upsertNewRecord msg now]
  | r :: rs =>
    if r.deviceId == msg.deviceId then applyRelaySet msg now r :: rs
    else r :: findOneAndUpdateRelay msg now rs

/-- Observable side effects of an ingestion handler, in program
order. -/
inductive HandlerEvent where
  | wsBroadcast (msgType : String) (deviceId : String)
  | persist (deviceId : String) (ok : Bool)
  | cacheSet (deviceId : String)
deriving Repr, DecidableEq

/-- `broadcastToWebSockets({type, data})`, as the event it appends to
the trace. -/
def broadcastToWebSockets (msgType : String) (deviceId : String) : List HandlerEvent :=
  [HandlerEvent.wsBroadcast msgType deviceId]

/-- The awaited `findOneAndUpdate` of `handleRelayStatus`, with the
possibility of a driver failure made explicit: the attempt is traced,
and on failure the collection is left unchanged and an exception is
signalled. -/
def tryRelayUpsert (fails : Bool) (msg : RelayStatusMsg) (now : Nat)
    (db : List DeviceStatusRecord) :
    List HandlerEvent × Except Unit (List DeviceStatusRecord) :=
  ([HandlerEvent.persist msg.deviceId (!fails)],
   if fails then Except.error () else Except.ok (findOneAndUpdateRelay msg now db))

/-- `handleRelayStatus(data)`: broadcast the raw payload tagged
`relay_status` first, then attempt the upsert inside the `try`; a
persistence error is caught and only logged. Returns the event trace
and the resulting `DeviceStatus` collection. -/
def handleRelayStatus (fails : Bool) (msg : RelayStatusMsg) (now : Nat)
    (db : List DeviceStatusRecord) : List HandlerEvent × List DeviceStatusRecord :=
  let ev1 := broadcastToWebSockets "relay_status" msg.deviceId
  let att := tryRelayUpsert fails msg now db
  match att.2 with
  | Except.ok db2 => (ev1 ++ att.1, db2)
  | Except.error _ => (ev1 ++ att.1, db)

/-- Payload of a `green-tech/device-status` bus message (a full
snapshot). -/
structure DeviceStatusMsg where
  deviceId : String
  ip : Option String
  rssi : Option Int
  uptime : Option Int
  relays : List RelayEntry
deriving Repr, DecidableEq

/-- `new DeviceStatus(data)`: the snapshot as a fresh document with
the schema's `timestamp` default. -/
def deviceStatusRecordOf (msg : DeviceStatusMsg) (now : Nat) : DeviceStatusRecord :=
  { deviceId := msg.deviceId, ip := msg.ip, rssi := msg.rssi, uptime := msg.uptime,
    relays := msg.relays.map some, timestamp := now }

/-- `deviceStatus.save()` with an explicit failure flag: on success
the document is appended (insert, never an update). -/
def trySaveDeviceStatus (fails : Bool) (msg : DeviceStatusMsg) (now : Nat)
    (db : List DeviceStatusRecord) :
    List HandlerEvent × Except Unit (List DeviceStatusRecord) :=
  ([HandlerEvent.persist msg.deviceId (!fails)],
   if fails then Except.error () else Except.ok (db ++ [deviceStatusRecordOf msg now]))

/-- `connectedDevices.set(deviceId, {...data, lastSeen})`: the
process-local cache, as a map from device identifier to last-seen
time. -/
def connectedDevicesSet (deviceId : String) (now : Nat) (cache : List (String × Nat)) :
    List (String × Nat) :=
  (deviceId, now) :: cache.filter (fun p => p.1 != deviceId)

/-- `handleDeviceStatus(data)`: the `try` block saves the snapshot,
updates the `connectedDevices` cache, then broadcasts tagged
`device_status`; an exception from `save` is caught before the cache
update and broadcast run. Returns the event trace, the collection and
the cache. -/
def handleDeviceStatus (fails : Bool) (msg : DeviceStatusMsg) (now : Nat)
    (db : List DeviceStatusRecord) (cache : List (String × Nat)) :
    List HandlerEvent × List DeviceStatusRecord × List (String × Nat) :=
  let att := trySaveDeviceStatus fails msg now db
  match att.2 with
  | Except.error _ => (att.1, db, cache)
  | Except.ok db2 =>
    let cache2 := connectedDevicesSet msg.deviceId now cache
    (att.1 ++ [HandlerEvent.cacheSet msg.deviceId]
           ++ broadcastToWebSockets "device_status" msg.deviceId,
     db2, cache2)

/-- Body of a `PUT /api/dashboard/relay/:deviceId` request. Absent
JSON fields are `none`. -/
structure RelayReq where
  index : Int
  name : String
  image : Option String
  enabled : Option Bool
deriving Repr, DecidableEq

/-- The relay-configuration upsert of the dashboard route: find the
relay with the requested index (`find(r => r.index === index)`); if
present, assign `name`, `image`, `enabled` in place; otherwise push a
new relay with an empty schedule list (`enabled` defaulting to `true`
when the field is `undefined`, `createdAt` from the schema default
`now`). -/
def upsertRelayConfig (now : Nat) (relays : List RelayConfig) (req : RelayReq) :
    List RelayConfig :=
  match relays.find? (fun r => r.index == req.index) with
  | some _ =>
    updateFirst (fun r => r.index == req.index)
      (fun r => { r with name := req.name, image := req.image, enabled := req.enabled })
      relays
  | none =>
    relays ++ [{ index := req.index, name := req.name, image := req.image,
                 schedules := [], enabled := some (req.enabled.getD true),
                 createdAt := now }]

example : (calculateNextRun 3 "08:00"
    { days := [3], startTime := "09:00", endTime := "10:00", enabled := some true }).daysFromNow = 7 := by
  decide

example : schedulerTick 1 "08:01"
    [{ username := "u", password := "p", deviceId := "D", createdAt := 0,
       dashboard := ⟨[{ index := 2, name := "pump", image := none,
                        schedules := [{ days := [1], startTime := "08:00",
                                        endTime := "08:02", enabled := some true }],
                        enabled := some true, createdAt := 0 }]⟩ }] =
    [controlRelay "D" 2 "on" none] := rfl

/-- A concrete stand-in for the bcrypt KDF, used in concrete
evaluations. -/
def sampleHash (s : String) : String := String.append "H#" s

/-- A concrete one-account store used in concrete evaluations. -/
def frameStore : List UserAccount :=
  [{ username := "u1", password := "old", deviceId := "DEV", createdAt := 5,
     dashboard := ⟨[]⟩ }]

/-- A concrete registration message matching `frameStore` by device
identifier only. -/
def frameMsg : RegMsg := { username := "u2", password := "pw", deviceId := "DEV" }

/-- A concrete relay-status message used in concrete evaluations. -/
def relayMsgSample : RelayStatusMsg :=
  { deviceId := "DEV", relay := 0, state := true, timer := 0 }

/-- A concrete device-status snapshot used in concrete evaluations. -/
def devMsgSample : DeviceStatusMsg :=
  { deviceId := "DEV", ip := some "10.0.0.2", rssi := some (-40), uptime := some 120,
    relays := [{ index := some 0, state := some false, name := some "pump", timer := some 0 }] }

/-- A concrete older status record for device "DEV" (inserted first,
so first in natural order). -/
def recOld : DeviceStatusRecord :=
  { deviceId := "DEV", ip := none, rssi := none, uptime := none,
    relays := [], timestamp := 10 }

/-- A concrete newer status record for device "DEV" (inserted second,
with the most recent timestamp). -/
def recNew : DeviceStatusRecord :=
  { deviceId := "DEV", ip := none, rssi := none, uptime := none,
    relays := [], timestamp := 20 }

/-- A concrete stored relay configuration used in concrete
evaluations. -/
def relayA : RelayConfig :=
  { index := 1, name := "old", image := none, schedules := [],
    enabled := some true, createdAt := 0 }

/-- A concrete relay-configuration request for the same index as
`relayA`. -/
def relayReqA : RelayReq :=
  { index := 1, name := "new", image := some "img", enabled := some false }

/-- A concrete relay array element whose stored `index` field (5)
differs from its array position, used in concrete evaluations. -/
def entryA : RelayEntry :=
  { index := some 5, state := some false, name := some "x", timer := some 1 }

/-! ## Helper lemmas -/

theorem updateFirst_length (p : α → Bool) (f : α → α) (l : List α) :
    (updateFirst p f l).length = l.length := by
  induction l with
  | nil => rfl
  | cons x xs ih =>
    simp only [updateFirst]
    split <;> simp [ih]

theorem countP_updateFirst (p q : α → Bool) (f : α → α)
    (hf : ∀ x, q (f x) = q x) (l : List α) :
    (updateFirst p f l).countP q = l.countP q := by
  induction l with
  | nil => rfl
  | cons x xs ih =>
    simp only [updateFirst]
    split
    · simp [List.countP_cons, hf]
    · simp [List.countP_cons, ih]

theorem map_updateFirst (p : α → Bool) (f : α → α) (g : α → β)
    (hf : ∀ x, g (f x) = g x) (l : List α) :
    (updateFirst p f l).map g = l.map g := by
  induction l with
  | nil => rfl
  | cons x xs ih =>
    simp only [updateFirst]
    split <;> simp [hf, ih]

theorem updateFirst_eq_set (p : α → Bool) (f : α → α) (l : List α)
    (h : ∃ x ∈ l, p x) :
    ∃ i, ∃ hi : i < l.length, p (l.get ⟨i, hi⟩) = true ∧
      l.findIdx? p = some i ∧
      updateFirst p f l = l.set i (f (l.get ⟨i, hi⟩)) := by
  induction l with
  | nil => simp at h
  | cons x xs ih =>
    by_cases hx : p x = true
    · refine ⟨0, by simp, hx, ?_, ?_⟩
      · simp [List.findIdx?_cons, hx]
      · simp [updateFirst, hx]
    · have hxs : ∃ y ∈ xs, p y := by
        obtain ⟨y, hy, hpy⟩ := h
        rcases List.mem_cons.mp hy with rfl | hy2
        · exact absurd hpy hx
        · exact ⟨y, hy2, hpy⟩
      obtain ⟨i, hi, hpi, hfind, heq⟩ := ih hxs
      refine ⟨i + 1, by simpa using Nat.succ_lt_succ hi, by simpa using hpi, ?_, ?_⟩
      · simp [List.findIdx?_cons, hx, hfind]
      · have hx2 : p x = false := by simpa using hx
        simp [updateFirst, hx2, heq]

/-! ## Claims about the Scheduler -/

/-- C2: every relay-control command emitted during a scheduler tick
has action "on"; the scheduler never publishes an "off" command. -/
theorem schedulerTick_only_on (currentDay : Nat) (currentTime : String)
    (users : List UserAccount) (c : RelayCommand)
    (hc : c ∈ schedulerTick currentDay currentTime users) : c.action = "on" := by
  simp only [schedulerTick, List.mem_flatMap] at hc
  obtain ⟨u, _, r, _, hcr⟩ := hc
  simp only [checkRelay] at hcr
  split at hcr
  · simp at hcr
  · simp only [List.mem_flatMap] at hcr
    obtain ⟨s, _, hcs⟩ := hcr
    simp only [checkSchedule] at hcs
    split at hcs
    · simp at hcs
    · split at hcs
      · simp only [List.mem_singleton] at hcs
        subst hcs
        rfl
      · simp at hcs

/-- Witness for `schedulerTick_only_on` at a concrete tick. -/
theorem schedulerTick_only_on_witness :
    controlRelay "D" 2 "on" none ∈ schedulerTick 1 "08:01"
      [{ username := "u", password := "p", deviceId := "D", createdAt := 0,
         dashboard := ⟨[{ index := 2, name := "pump", image := none,
                          schedules := [{ days := [1], startTime := "08:00",
                                          endTime := "08:02", enabled := some true }],
                          enabled := some true, createdAt := 0 }]⟩ }] ∧
    (controlRelay "D" 2 "on" none).action = "on" :=
  ⟨by decide, schedulerTick_only_on 1 "08:01"
    [{ username := "u", password := "p", deviceId := "D", createdAt := 0,
       dashboard := ⟨[{ index := 2, name := "pump", image := none,
                        schedules := [{ days := [1], startTime := "08:00",
                                        endTime := "08:02", enabled := some true }],
                        enabled := some true, createdAt := 0 }]⟩ }]
    (controlRelay "D" 2 "on" none) (by decide)⟩

/-- C1 (code evaluation at failing inputs): the scheduler's captured
time string is 12-hour "hh:mm AM/PM" (`formatTimeEnEG`), while stored
schedule times are 24-hour "HH:MM", so the lexicographic match never
means what the claim says.  At Cairo Monday 08:02 — the inclusive end
minute of the spec's own example window 08:00–08:02 on day 1 — the
capture is "08:02 AM", `"08:02 AM" <= "08:02"` is false, and the tick
emits nothing although the claim demands an "on" command; at Cairo
Monday 20:15, far outside an 08:00–08:30 window, the capture
"08:15 PM" lies lexicographically inside the window and the tick
emits a spurious "on" command. -/
theorem schedulerTick_ampm_capture_bug :
    formatTimeEnEG 8 2 = "08:02 AM" ∧
    jsStrLe "08:00" "08:02" = true ∧ jsStrLe "08:02" "08:02" = true ∧
    jsStrLe (formatTimeEnEG 8 2) "08:02" = false ∧
    schedulerTick 1 (formatTimeEnEG 8 2)
      [{ username := "u", password := "p", deviceId := "D", createdAt := 0,
         dashboard := ⟨[{ index := 2, name := "pump", image := none,
                          schedules := [{ days := [1], startTime := "08:00",
                                          endTime := "08:02", enabled := some true }],
                          enabled := some true, createdAt := 0 }]⟩ }] = [] ∧
    formatTimeEnEG 20 15 = "08:15 PM" ∧
    (jsStrLe "08:00" "20:15" && jsStrLe "20:15" "08:30") = false ∧
    schedulerTick 1 (formatTimeEnEG 20 15)
      [{ username := "u", password := "p", deviceId := "D", createdAt := 0,
         dashboard := ⟨[{ index := 2, name := "pump", image := none,
                          schedules := [{ days := [1], startTime := "08:00",
                                          endTime := "08:30", enabled := some true }],
                          enabled := some true, createdAt := 0 }]⟩ }] =
      [controlRelay "D" 2 "on" none] := by
  decide

/-- C3 (code evaluation at the claim's failing input): on weekday 3 at
08:00, a schedule with day set {3} and start time 09:00 — later than
the current time — gets `daysFromNow = 7` from `calculateNextRun`, not
0 as the specification requires; the day-search loop starts at `i = 1`
and the captured current time is never consulted (a schedule already
past its start time also yields 7, as specified). -/
theorem calculateNextRun_today_returns_seven :
    jsStrLt "08:00" "09:00" = true ∧
    (calculateNextRun 3 "08:00"
      { days := [3], startTime := "09:00", endTime := "10:00",
        enabled := some true }).daysFromNow = 7 ∧
    jsStrLt "07:00" "08:00" = true ∧
    (calculateNextRun 3 "08:00"
      { days := [3], startTime := "07:00", endTime := "07:30",
        enabled := some true }).daysFromNow = 7 := by
  decide

/-! ## Claims about the registration handler -/

/-- C4 counterexample: a store whose usernames and device identifiers
are each unique can still contain one account matching the message by
username and a different one matching by device identifier; processing
the registration twice updates only the first and leaves two matching
accounts, not exactly one. -/
theorem handleUserRegistration_twice_not_unique :
    (([{ username := "a", password := "h1", deviceId := "X", createdAt := 0,
         dashboard := ⟨[]⟩ },
       { username := "b", password := "h2", deviceId := "Y", createdAt := 0,
         dashboard := ⟨[]⟩ }] : List UserAccount).map (fun u => u.username)).Nodup ∧
    (([{ username := "a", password := "h1", deviceId := "X", createdAt := 0,
         dashboard := ⟨[]⟩ },
       { username := "b", password := "h2", deviceId := "Y", createdAt := 0,
         dashboard := ⟨[]⟩ }] : List UserAccount).map (fun u => u.deviceId)).Nodup ∧
    ((handleUserRegistration sampleHash 1 { username := "a", password := "p", deviceId := "Y" }
        (handleUserRegistration sampleHash 1 { username := "a", password := "p", deviceId := "Y" }
          [{ username := "a", password := "h1", deviceId := "X", createdAt := 0,
             dashboard := ⟨[]⟩ },
           { username := "b", password := "h2", deviceId := "Y", createdAt := 0,
             dashboard := ⟨[]⟩ }])).countP
      (regMatches { username := "a", password := "p", deviceId := "Y" })) = 2 := by
  decide

/-- C4 (amended): for a valid registration message (all three fields
non-empty) and a store holding at most one account matching the
message by username or device identifier, processing the message twice
leaves exactly one matching account; and whenever a matching account
exists the handler only updates it — it never grows the store. -/
theorem handleUserRegistration_idempotent (hash : String → String) (now1 now2 : Nat)
    (m : RegMsg) (store : List UserAccount)
    (h1 : m.username ≠ "") (h2 : m.password ≠ "") (h3 : m.deviceId ≠ "")
    (h4 : store.countP (regMatches m) ≤ 1) :
    ((handleUserRegistration hash now2 m (handleUserRegistration hash now1 m store)).countP
       (regMatches m) = 1) ∧
    (∀ st : List UserAccount, (st.find? (regMatches m)).isSome →
       (handleUserRegistration hash now1 m st).length = st.length) := by
  have hpres : ∀ x : UserAccount,
      regMatches m { x with password := hash m.password } = regMatches m x := fun _ => rfl
  have hguard : ¬ (m.username = "" ∨ m.password = "" ∨ m.deviceId = "") := by
    simp [h1, h2, h3]
  have hstep : ∀ (now : Nat) (st : List UserAccount), (st.find? (regMatches m)).isSome →
      handleUserRegistration hash now m st =
        updateFirst (regMatches m) (fun u => { u with password := hash m.password }) st := by
    intro now st hsome
    unfold handleUserRegistration
    rw [if_neg hguard]
    rcases hf : st.find? (regMatches m) with _ | v
    · rw [hf] at hsome; simp at hsome
    · rfl
  have hcount : ∀ (st : List UserAccount),
      (updateFirst (regMatches m) (fun u => { u with password := hash m.password }) st).countP
        (regMatches m) = st.countP (regMatches m) :=
    countP_updateFirst _ _ _ hpres
  constructor
  · rcases hf : store.find? (regMatches m) with _ | u
    · have hzero : store.countP (regMatches m) = 0 :=
        List.countP_eq_zero.mpr (fun a ha => by
          simpa using List.find?_eq_none.mp hf a ha)
      have hstep1 : handleUserRegistration hash now1 m store =
          store ++ [{ username := m.username, password := hash m.password,
                      deviceId := m.deviceId, createdAt := now1,
                      dashboard := { relays := [] } }] := by
        unfold handleUserRegistration
        rw [if_neg hguard, hf]
      have hone : (handleUserRegistration hash now1 m store).countP (regMatches m) = 1 := by
        rw [hstep1, List.countP_append, hzero]
        simp [regMatches]
      have hsome2 : ((handleUserRegistration hash now1 m store).find? (regMatches m)).isSome := by
        apply List.find?_isSome.mpr
        apply List.countP_pos_iff.mp
        omega
      rw [hstep now2 _ hsome2, hcount, hone]
    · have hmem : u ∈ store := List.mem_of_find?_eq_some hf
      have hpu : regMatches m u = true := List.find?_some hf
      have hpos : 0 < store.countP (regMatches m) :=
        List.countP_pos_iff.mpr ⟨u, hmem, hpu⟩
      have hone0 : store.countP (regMatches m) = 1 := by omega
      have hsome1 : (store.find? (regMatches m)).isSome := by rw [hf]; rfl
      have hone : (handleUserRegistration hash now1 m store).countP (regMatches m) = 1 := by
        rw [hstep now1 _ hsome1, hcount, hone0]
      have hsome2 : ((handleUserRegistration hash now1 m store).find? (regMatches m)).isSome := by
        apply List.find?_isSome.mpr
        apply List.countP_pos_iff.mp
        omega
      rw [hstep now2 _ hsome2, hcount, hone]
  · intro st hsome
    rw [hstep now1 st hsome, updateFirst_length]

/-- Witness for `handleUserRegistration_idempotent`: a fresh store and
a well-formed message. -/
theorem handleUserRegistration_idempotent_witness :
    (("u" : String) ≠ "" ∧ ("p" : String) ≠ "" ∧ ("d" : String) ≠ "" ∧
      (([] : List UserAccount).countP
        (regMatches { username := "u", password := "p", deviceId := "d" }) ≤ 1)) ∧
    (((handleUserRegistration sampleHash 1 { username := "u", password := "p", deviceId := "d" }
        (handleUserRegistration sampleHash 0 { username := "u", password := "p", deviceId := "d" }
          [])).countP (regMatches { username := "u", password := "p", deviceId := "d" }) = 1) ∧
      (∀ st : List UserAccount,
        (st.find? (regMatches { username := "u", password := "p", deviceId := "d" })).isSome →
        (handleUserRegistration sampleHash 0
          { username := "u", password := "p", deviceId := "d" } st).length = st.length)) :=
  ⟨⟨by decide, by decide, by decide, by decide⟩,
   handleUserRegistration_idempotent sampleHash 0 1
     { username := "u", password := "p", deviceId := "d" } []
     (by decide) (by decide) (by decide) (by decide)⟩

/-- C5: when a valid registration message matches an existing account
(by username or device identifier), the handler rewrites exactly that
account's password with a fresh hash; the store is otherwise
pointwise unchanged, and the updated account keeps its username,
device identifier, creation time and entire dashboard. -/
theorem handleUserRegistration_frame (hash : String → String) (now : Nat)
    (m : RegMsg) (store : List UserAccount)
    (h1 : m.username ≠ "") (h2 : m.password ≠ "") (h3 : m.deviceId ≠ "")
    (h4 : ∃ u ∈ store, regMatches m u) :
    ∃ i, ∃ hi : i < store.length,
      regMatches m (store.get ⟨i, hi⟩) = true ∧
      handleUserRegistration hash now m store =
        store.set i { store.get ⟨i, hi⟩ with password := hash m.password } ∧
      ({ store.get ⟨i, hi⟩ with password := hash m.password }).password = hash m.password ∧
      ({ store.get ⟨i, hi⟩ with password := hash m.password }).username =
        (store.get ⟨i, hi⟩).username ∧
      ({ store.get ⟨i, hi⟩ with password := hash m.password }).deviceId =
        (store.get ⟨i, hi⟩).deviceId ∧
      ({ store.get ⟨i, hi⟩ with password := hash m.password }).createdAt =
        (store.get ⟨i, hi⟩).createdAt ∧
      ({ store.get ⟨i, hi⟩ with password := hash m.password }).dashboard =
        (store.get ⟨i, hi⟩).dashboard := by
  obtain ⟨i, hi, hpi, _, heq⟩ :=
    updateFirst_eq_set (regMatches m) (fun u => { u with password := hash m.password }) store h4
  refine ⟨i, hi, hpi, ?_, rfl, rfl, rfl, rfl, rfl⟩
  unfold handleUserRegistration
  rw [if_neg (by simp [h1, h2, h3])]
  rcases hf : store.find? (regMatches m) with _ | u
  · have hsome : (store.find? (regMatches m)).isSome := List.find?_isSome.mpr h4
    rw [hf] at hsome
    simp at hsome
  · exact heq

/-- Witness for `handleUserRegistration_frame`: a one-account store
matched by device identifier. -/
theorem handleUserRegistration_frame_witness :
    (frameMsg.username ≠ "" ∧ frameMsg.password ≠ "" ∧ frameMsg.deviceId ≠ "" ∧
      (∃ u ∈ frameStore, regMatches frameMsg u)) ∧
    (∃ i, ∃ hi : i < frameStore.length,
      regMatches frameMsg (frameStore.get ⟨i, hi⟩) = true ∧
      handleUserRegistration sampleHash 9 frameMsg frameStore =
        frameStore.set i
          { frameStore.get ⟨i, hi⟩ with password := sampleHash frameMsg.password } ∧
      ({ frameStore.get ⟨i, hi⟩ with
          password := sampleHash frameMsg.password }).password = sampleHash frameMsg.password ∧
      ({ frameStore.get ⟨i, hi⟩ with
          password := sampleHash frameMsg.password }).username = (frameStore.get ⟨i, hi⟩).username ∧
      ({ frameStore.get ⟨i, hi⟩ with
          password := sampleHash frameMsg.password }).deviceId = (frameStore.get ⟨i, hi⟩).deviceId ∧
      ({ frameStore.get ⟨i, hi⟩ with
          password := sampleHash frameMsg.password }).createdAt =
        (frameStore.get ⟨i, hi⟩).createdAt ∧
      ({ frameStore.get ⟨i, hi⟩ with
          password := sampleHash frameMsg.password }).dashboard =
        (frameStore.get ⟨i, hi⟩).dashboard) :=
  ⟨by decide,
   handleUserRegistration_frame sampleHash 9 frameMsg frameStore
     (by decide) (by decide) (by decide) (by decide)⟩

/-! ## Claims about the status handlers -/

/-- C6: the relay-status handler broadcasts the payload tagged
`relay_status` as its first action, strictly before the persistence
attempt, for every message (no validation gate); the broadcast happens
whether or not the upsert fails, and a failed upsert leaves the
collection unchanged (the error is only logged). -/
theorem handleRelayStatus_broadcast_first (fails : Bool) (msg : RelayStatusMsg)
    (now : Nat) (db : List DeviceStatusRecord) :
    ((handleRelayStatus fails msg now db).1)[0]? =
      some (HandlerEvent.wsBroadcast "relay_status" msg.deviceId) ∧
    ((handleRelayStatus fails msg now db).1)[1]? =
      some (HandlerEvent.persist msg.deviceId (!fails)) ∧
    HandlerEvent.wsBroadcast "relay_status" msg.deviceId ∈
      (handleRelayStatus fails msg now db).1 ∧
    (fails = true → (handleRelayStatus fails msg now db).2 = db) := by
  cases fails <;>
    simp [handleRelayStatus, tryRelayUpsert, broadcastToWebSockets]

/-- Witness for `handleRelayStatus_broadcast_first`: with an injected
persistence failure the broadcast still occurs and the collection is
unchanged. -/
theorem handleRelayStatus_broadcast_first_witness :
    (true = true) ∧
    (HandlerEvent.wsBroadcast "relay_status" relayMsgSample.deviceId ∈
        (handleRelayStatus true relayMsgSample 5 []).1 ∧
      (handleRelayStatus true relayMsgSample 5 []).2 = []) :=
  ⟨rfl,
   (handleRelayStatus_broadcast_first true relayMsgSample 5 []).2.2.1,
   (handleRelayStatus_broadcast_first true relayMsgSample 5 []).2.2.2 rfl⟩

/-- C7: the device-status handler performs no broadcast and no cache
update when the save fails (collection and cache are untouched); on
success the persisted insert is followed by the cache update and then
the `device_status` broadcast, in that order. -/
theorem handleDeviceStatus_persist_gates_broadcast (fails : Bool) (msg : DeviceStatusMsg)
    (now : Nat) (db : List DeviceStatusRecord) (cache : List (String × Nat)) :
    (fails = true →
      (∀ t d, HandlerEvent.wsBroadcast t d ∉ (handleDeviceStatus fails msg now db cache).1) ∧
      (∀ d, HandlerEvent.cacheSet d ∉ (handleDeviceStatus fails msg now db cache).1) ∧
      (handleDeviceStatus fails msg now db cache).2.1 = db ∧
      (handleDeviceStatus fails msg now db cache).2.2 = cache) ∧
    (fails = false →
      (handleDeviceStatus fails msg now db cache).1 =
        [HandlerEvent.persist msg.deviceId true, HandlerEvent.cacheSet msg.deviceId,
         HandlerEvent.wsBroadcast "device_status" msg.deviceId] ∧
      (handleDeviceStatus fails msg now db cache).2.1 = db ++ [deviceStatusRecordOf msg now] ∧
      (handleDeviceStatus fails msg now db cache).2.2 =
        connectedDevicesSet msg.deviceId now cache) := by
  cases fails <;>
    simp [handleDeviceStatus, trySaveDeviceStatus, broadcastToWebSockets]

/-- Witness for `handleDeviceStatus_persist_gates_broadcast`: with an
injected save failure there is no broadcast and nothing changes. -/
theorem handleDeviceStatus_persist_gates_broadcast_witness :
    (true = true) ∧
    (HandlerEvent.wsBroadcast "device_status" devMsgSample.deviceId ∉
        (handleDeviceStatus true devMsgSample 5 [] []).1 ∧
      (handleDeviceStatus true devMsgSample 5 [] []).2.1 = [] ∧
      (handleDeviceStatus true devMsgSample 5 [] []).2.2 = []) :=
  ⟨rfl,
   ((handleDeviceStatus_persist_gates_broadcast true devMsgSample 5 [] []).1 rfl).1
     "device_status" devMsgSample.deviceId,
   ((handleDeviceStatus_persist_gates_broadcast true devMsgSample 5 [] []).1 rfl).2.2.1,
   ((handleDeviceStatus_persist_gates_broadcast true devMsgSample 5 [] []).1 rfl).2.2.2⟩

/-! ## Claims about the status-record upsert -/

/-- C8 counterexample: with two records for the same device in the
collection, the upsert modifies the first record in natural order —
the one with the OLDER timestamp — and leaves the most recent record
untouched, because `findOneAndUpdate` is called without a sort. -/
theorem findOneAndUpdateRelay_not_most_recent :
    recOld.deviceId = relayMsgSample.deviceId ∧
    recNew.deviceId = relayMsgSample.deviceId ∧
    recOld.timestamp < recNew.timestamp ∧
    (findOneAndUpdateRelay relayMsgSample 30 [recOld, recNew])[1]? = some recNew ∧
    (findOneAndUpdateRelay relayMsgSample 30 [recOld, recNew])[0]? =
      some (applyRelaySet relayMsgSample 30 recOld) ∧
    applyRelaySet relayMsgSample 30 recOld ≠ recOld := by
  decide

/-- C8 (amended): the upsert modifies the first record for the device
identifier in the collection's natural (insertion) order — no
timestamp ordering is applied — setting that relay position's state
and timer and refreshing the timestamp (`applyRelaySet`); it inserts
a new record exactly when no record for that device exists. -/
theorem findOneAndUpdateRelay_natural_order (msg : RelayStatusMsg) (now : Nat)
    (db : List DeviceStatusRecord) :
    (db.find? (fun r => r.deviceId == msg.deviceId) = none →
      findOneAndUpdateRelay msg now db = db ++ [upsertNewRecord msg now]) ∧
    (∀ i, ∀ hi : i < db.length,
      db.findIdx? (fun r => r.deviceId == msg.deviceId) = some i →
      findOneAndUpdateRelay msg now db =
        db.set i (applyRelaySet msg now (db.get ⟨i, hi⟩))) := by
  induction db with
  | nil =>
    refine ⟨fun _ => rfl, ?_⟩
    intro i hi
    simp at hi
  | cons r rs ih =>
    by_cases h : (r.deviceId == msg.deviceId) = true
    · constructor
      · intro hnone
        rw [List.find?_cons_of_pos (p := fun x => x.deviceId == msg.deviceId) rs h] at hnone
        exact absurd hnone (by simp)
      · intro i hi hidx
        rw [List.findIdx?_cons, if_pos h] at hidx
        have h0 : i = 0 := by simpa using hidx.symm
        subst h0
        simp [findOneAndUpdateRelay, h]
    · constructor
      · intro hnone
        rw [List.find?_cons_of_neg (p := fun x => x.deviceId == msg.deviceId) rs h] at hnone
        have hrs := ih.1 hnone
        simp [findOneAndUpdateRelay, h, hrs]
      · intro i hi hidx
        rw [List.findIdx?_cons, if_neg h, List.findIdx?_succ] at hidx
        rcases hj : rs.findIdx? (fun r => r.deviceId == msg.deviceId) with _ | j
        · rw [hj] at hidx
          simp at hidx
        · rw [hj] at hidx
          have hji : i = j + 1 := by simpa using hidx.symm
          subst hji
          have hjlt : j < rs.length := by
            simp only [List.length_cons] at hi
            omega
          have hrs := ih.2 j hjlt hj
          simp [findOneAndUpdateRelay, h, hrs]

/-- Witness for `findOneAndUpdateRelay_natural_order`: a one-record
collection for the device. -/
theorem findOneAndUpdateRelay_natural_order_witness :
    (([recOld] : List DeviceStatusRecord).findIdx?
        (fun r => r.deviceId == relayMsgSample.deviceId) = some 0) ∧
    findOneAndUpdateRelay relayMsgSample 30 [recOld] =
      ([recOld] : List DeviceStatusRecord).set 0
        (applyRelaySet relayMsgSample 30
          (([recOld] : List DeviceStatusRecord).get ⟨0, by decide⟩)) :=
  ⟨by decide,
   (findOneAndUpdateRelay_natural_order relayMsgSample 30 [recOld]).2 0 (by decide) (by decide)⟩

/-! ## Claims about the relay-configuration upsert -/

theorem exists_of_findIdx?_eq_some {p : α → Bool} {l : List α} {i : Nat}
    (h : l.findIdx? p = some i) : ∃ x ∈ l, p x := by
  induction l generalizing i with
  | nil => simp [List.findIdx?] at h
  | cons x xs ih =>
    rw [List.findIdx?_cons] at h
    by_cases hx : p x
    · exact ⟨x, List.mem_cons_self x xs, hx⟩
    · rw [if_neg hx, List.findIdx?_succ] at h
      rcases hj : xs.findIdx? p with _ | j
      · rw [hj] at h
        simp at h
      · obtain ⟨y, hy, hpy⟩ := ih hj
        exact ⟨y, List.mem_cons_of_mem x hy, hpy⟩

theorem upsertRelayConfig_nodup (now : Nat) (relays : List RelayConfig) (req : RelayReq)
    (h : (relays.map (fun r => r.index)).Nodup) :
    ((upsertRelayConfig now relays req).map (fun r => r.index)).Nodup := by
  rcases hf : relays.find? (fun r => r.index == req.index) with _ | r0
  · have hstep : upsertRelayConfig now relays req =
        relays ++ [{ index := req.index, name := req.name, image := req.image,
                     schedules := [], enabled := some (req.enabled.getD true),
                     createdAt := now }] := by
      unfold upsertRelayConfig
      rw [hf]
    rw [hstep, List.map_append, List.nodup_append]
    refine ⟨h, by simp, ?_⟩
    intro a ha hb
    simp only [List.map_cons, List.map_nil, List.mem_singleton] at hb
    subst hb
    obtain ⟨r, hr, hri⟩ := List.mem_map.mp ha
    have hnone := List.find?_eq_none.mp hf r hr
    exact hnone (by simp [hri])
  · have hstep : upsertRelayConfig now relays req =
        updateFirst (fun r => r.index == req.index)
          (fun r => { r with name := req.name, image := req.image, enabled := req.enabled })
          relays := by
      unfold upsertRelayConfig
      rw [hf]
    rw [hstep, map_updateFirst (fun (r : RelayConfig) => r.index == req.index)
          (fun r => { r with name := req.name, image := req.image, enabled := req.enabled })
          (fun r => r.index) (fun x => rfl)]
    exact h

theorem foldl_upsertRelayConfig_nodup (writes : List (Nat × RelayReq)) :
    ∀ start : List RelayConfig, (start.map (fun r => r.index)).Nodup →
      ((writes.foldl (fun rs q => upsertRelayConfig q.1 rs q.2) start).map
        (fun r => r.index)).Nodup := by
  induction writes with
  | nil =>
    intro start h
    simpa using h
  | cons w ws ih =>
    intro start h
    simp only [List.foldl_cons]
    exact ih _ (upsertRelayConfig_nodup w.1 start w.2 h)

/-- C9: the dashboard relay write updates the entry whose stored index
equals the requested index in place (relay count unchanged) when one
exists, and otherwise appends a fresh entry with that index and an
empty schedule list; consequently a single write, and any sequence of
writes, preserves freedom from duplicate index values. -/
theorem upsertRelayConfig_spec (now : Nat) (relays : List RelayConfig) (req : RelayReq) :
    (∀ i, ∀ hi : i < relays.length,
      relays.findIdx? (fun r => r.index == req.index) = some i →
      upsertRelayConfig now relays req =
        relays.set i { relays.get ⟨i, hi⟩ with
          name := req.name, image := req.image, enabled := req.enabled } ∧
      (upsertRelayConfig now relays req).length = relays.length) ∧
    (relays.find? (fun r => r.index == req.index) = none →
      upsertRelayConfig now relays req =
        relays ++ [{ index := req.index, name := req.name, image := req.image,
                     schedules := [], enabled := some (req.enabled.getD true),
                     createdAt := now }]) ∧
    ((relays.map (fun r => r.index)).Nodup →
      ((upsertRelayConfig now relays req).map (fun r => r.index)).Nodup) ∧
    (∀ (writes : List (Nat × RelayReq)) (start : List RelayConfig),
      (start.map (fun r => r.index)).Nodup →
      ((writes.foldl (fun rs q => upsertRelayConfig q.1 rs q.2) start).map
        (fun r => r.index)).Nodup) := by
  refine ⟨?_, ?_, upsertRelayConfig_nodup now relays req,
          fun writes => foldl_upsertRelayConfig_nodup writes⟩
  · intro i hi hidx
    have hex : ∃ r ∈ relays, (fun r => r.index == req.index) r :=
      exists_of_findIdx?_eq_some hidx
    obtain ⟨i2, hi2, hp2, hfind2, heq2⟩ :=
      updateFirst_eq_set (fun r => r.index == req.index)
        (fun r => { r with name := req.name, image := req.image, enabled := req.enabled })
        relays hex
    rw [hfind2] at hidx
    have h12 : i2 = i := by simpa using hidx
    subst h12
    have hmain : upsertRelayConfig now relays req =
        relays.set i2 { relays.get ⟨i2, hi2⟩ with
          name := req.name, image := req.image, enabled := req.enabled } := by
      rcases hf : relays.find? (fun r => r.index == req.index) with _ | r0
      · obtain ⟨r, hr, hpr⟩ := hex
        have hnone := List.find?_eq_none.mp hf r hr
        exact absurd hpr hnone
      · have hstep : upsertRelayConfig now relays req =
            updateFirst (fun r => r.index == req.index)
              (fun r => { r with name := req.name, image := req.image, enabled := req.enabled })
              relays := by
          unfold upsertRelayConfig
          rw [hf]
        rw [hstep]
        exact heq2
    exact ⟨hmain, by rw [hmain]; simp⟩
  · intro hf
    unfold upsertRelayConfig
    rw [hf]

/-- Witness for `upsertRelayConfig_spec`: updating the existing relay
at index 1 in a one-relay dashboard. -/
theorem upsertRelayConfig_spec_witness :
    (([relayA] : List RelayConfig).findIdx? (fun r => r.index == relayReqA.index) = some 0 ∧
      0 < ([relayA] : List RelayConfig).length) ∧
    (upsertRelayConfig 3 [relayA] relayReqA =
      ([relayA] : List RelayConfig).set 0
        { ([relayA] : List RelayConfig).get ⟨0, by decide⟩ with
          name := relayReqA.name, image := relayReqA.image, enabled := relayReqA.enabled } ∧
      (upsertRelayConfig 3 [relayA] relayReqA).length = ([relayA] : List RelayConfig).length) :=
  ⟨⟨by decide, by decide⟩,
   (upsertRelayConfig_spec 3 [relayA] relayReqA).1 0 (by decide) (by decide)⟩

/-- C10: the `$set` field paths `relays.c.state` / `relays.c.timer`
address array POSITION `c`: the element at position `c` gets the new
state and timer (whatever its stored `index` field says), every other
existing position — including any element whose stored `index` field
equals `c` — is untouched, and when the array is shorter than `c + 1`
the missing intermediate positions are created as `null`. -/
theorem setRelayPath_positional (relays : List (Option RelayEntry)) (c : Nat)
    (st : Bool) (tm : Int) :
    (setRelayPath relays c st tm).length = max relays.length (c + 1) ∧
    (∀ p, p < relays.length → p ≠ c →
      (setRelayPath relays c st tm)[p]? = relays[p]?) ∧
    (∃ e : RelayEntry, (setRelayPath relays c st tm)[c]? = some (some e) ∧
      e.state = some st ∧ e.timer = some tm) ∧
    (∀ p, relays.length ≤ p → p < c →
      (setRelayPath relays c st tm)[p]? = some none) := by
  induction relays generalizing c with
  | nil =>
    induction c with
    | zero =>
      refine ⟨by simp [setRelayPath], ?_, ?_, ?_⟩
      · intro p hp
        simp at hp
      · exact ⟨{ index := none, state := some st, name := none, timer := some tm },
          by simp [setRelayPath, setEntry], rfl, rfl⟩
      · intro p h0 hc
        omega
    | succ c ihc =>
      obtain ⟨ih1, ih2, ih3, ih4⟩ := ihc
      refine ⟨?_, ?_, ?_, ?_⟩
      · simp only [setRelayPath, List.length_cons, List.length_nil, ih1]
        omega
      · intro p hp
        simp at hp
      · obtain ⟨e, he, hes, het⟩ := ih3
        exact ⟨e, by simpa [setRelayPath] using he, hes, het⟩
      · intro p h0 hc
        cases p with
        | zero => simp [setRelayPath]
        | succ p2 =>
          have hp2 := ih4 p2 (by simp) (by omega)
          simpa [setRelayPath] using hp2
  | cons e rest ih =>
    cases c with
    | zero =>
      refine ⟨?_, ?_, ?_, ?_⟩
      · simp only [setRelayPath, List.length_cons]
        omega
      · intro p hp hpc
        cases p with
        | zero => exact absurd rfl hpc
        | succ p2 => simp [setRelayPath]
      · cases e with
        | none =>
          exact ⟨{ index := none, state := some st, name := none, timer := some tm },
            by simp [setRelayPath, setEntry], rfl, rfl⟩
        | some e0 =>
          exact ⟨{ e0 with state := some st, timer := some tm },
            by simp [setRelayPath, setEntry], rfl, rfl⟩
      · intro p h0 hc
        omega
    | succ c =>
      obtain ⟨ih1, ih2, ih3, ih4⟩ := ih c
      refine ⟨?_, ?_, ?_, ?_⟩
      · simp only [setRelayPath, List.length_cons, ih1]
        omega
      · intro p hp hpc
        cases p with
        | zero => simp [setRelayPath]
        | succ p2 =>
          have hp2 := ih2 p2 (by simpa using Nat.lt_of_succ_lt_succ hp) (by omega)
          simpa [setRelayPath] using hp2
      · obtain ⟨e2, he2, hs2, ht2⟩ := ih3
        exact ⟨e2, by simpa [setRelayPath] using he2, hs2, ht2⟩
      · intro p h0 hc
        simp only [List.length_cons] at h0
        cases p with
        | zero => omega
        | succ p2 =>
          have hp2 := ih4 p2 (by omega) (by omega)
          simpa [setRelayPath] using hp2

/-- Witness for `setRelayPath_positional`: setting channel 3 on a
two-element array whose first element's stored index field is 5. -/
theorem setRelayPath_positional_witness :
    ((0 : Nat) < ([some entryA, none] : List (Option RelayEntry)).length ∧ (0 : Nat) ≠ 3) ∧
    (setRelayPath [some entryA, none] 3 true 9)[0]? =
      ([some entryA, none] : List (Option RelayEntry))[0]? :=
  ⟨⟨by decide, by decide⟩,
   (setRelayPath_positional [some entryA, none] 3 true 9).2.1 0 (by decide) (by decide)⟩
